import Mathlib

/-! librevault: peer sessions, tracker identifiers, multicast announcements

A shallow embedding of the parts of the librevault sources that the
properties below are about:

* `P2PFolder::ready` (daemon/p2p/P2PFolder.h),
* `TrackerConnection::get_info_hash` / `get_peer_id`
  (discovery/bttracker/TrackerConnection.cpp),
* `MulticastGroup` (daemon/discovery/multicast/MulticastGroup.cpp),
* `FolderProperties::init_secrets` (gui/gui/FolderProperties.cpp),
* the constructor of `MetaStorage` (daemon/folder/meta/MetaStorage.cpp).

Objects become structures, member functions become functions that take the
object and return the new object, calls into Qt or the network are recorded
as events.  Bytes are `UInt8`, byte strings are lists of bytes.
-/

namespace librevault

/-- One octet. -/
abbrev Byte := UInt8

/-- A `QByteArray`, `std::string` or `std::vector<uint8_t>`: a run of octets. -/
abbrev QByteArray := List Byte

/-! ## Secret (capability levels) -/

/-- Modelled from the spec: `Secret.h` is not among the sources.  The four
capability types, listed in descending privilege. -/
inductive SecretType where
  | Owner
  | ReadWrite
  | ReadOnly
  | Download
  deriving DecidableEq, Repr

/-- Modelled from the spec: the position of a type in the descending-privilege
order `Owner, ReadWrite, ReadOnly, Download`; the enumerator values of
`Secret::Type` grow as privilege shrinks, which is what the comparisons
`get_type() <= ReadWrite` of the sources rely on. -/
def SecretType.rank : SecretType → Nat
  | .Owner => 0
  | .ReadWrite => 1
  | .ReadOnly => 2
  | .Download => 3

instance : LE SecretType := ⟨fun a b => a.rank ≤ b.rank⟩

instance (a b : SecretType) : Decidable (a ≤ b) :=
  inferInstanceAs (Decidable (a.rank ≤ b.rank))

/-- Failures of the operations of a secret. -/
inductive SecretError where
  | InvalidSecret
  | CapabilityInsufficient
  deriving DecidableEq, Repr

/-- A secret: its capability type and its key material. -/
structure Secret where
  type : SecretType
  payload : QByteArray
  deriving DecidableEq, Repr

/-- The accessor `Secret::get_type`. -/
def Secret.get_type (s : Secret) : SecretType := s.type

/-- Modelled from the spec: `Secret::derive` is not among the sources.
"`derive(target_type)`: succeeds iff `target_type >= self.type`; returns a new
Secret whose payload is a one-way-function of the source", and fails with
`CapabilityInsufficient` otherwise.  The one-way function is the parameter
`owf`. -/
def Secret.derive (owf : SecretType → QByteArray → QByteArray) (s : Secret)
    (target : SecretType) : Except SecretError Secret :=
  if s.type ≤ target then .ok { type := target, payload := owf target s.payload }
  else .error .CapabilityInsufficient

/-! ## P2PFolder -/

/-- The handshake flags of a peer session (`P2PFolder`), with the initial
values of the member initialisers. -/
structure P2PFolder where
  handshake_received_ : Bool := false
  handshake_sent_ : Bool := false
  deriving DecidableEq, Repr

/-- The member `bool ready() const { return handshake_sent_ && handshake_received_; }`. -/
def P2PFolder.ready (self : P2PFolder) : Bool :=
  self.handshake_sent_ && self.handshake_received_

/-! ## FolderProperties::init_secrets -/

/-- The widgets of the dialog that `init_secrets` touches. -/
inductive Widget where
  | label_rw | secret_rw | copy_rw
  | label_ro | secret_ro | copy_ro
  | secret_do
  deriving DecidableEq, Repr

/-- What `init_secrets` does, in program order: a call of `Secret::derive`
with its target, a `setText(s.string())` for the secret `s`, or a
`setVisible`. -/
inductive UiEvent where
  | derive (target : SecretType)
  | setText (w : Widget) (s : Secret)
  | setVisible (w : Widget) (visible : Bool)
  deriving DecidableEq, Repr

/-- The function `FolderProperties::init_secrets` for the folder secret `secret`.  The
result is the events performed and the exception that ended the function, if
one was thrown by `derive`. -/
def init_secrets (owf : SecretType → QByteArray → QByteArray) (secret : Secret) :
    List UiEvent × Option SecretError :=
  let rw : List UiEvent :=
    if secret.get_type ≤ SecretType.ReadWrite then
      [.setText .secret_rw secret]
    else
      [.setVisible .label_rw false, .setVisible .secret_rw false, .setVisible .copy_rw false]
  let download (done : List UiEvent) : List UiEvent × Option SecretError :=
    match secret.derive owf .Download with
    | .error e => (done ++ [.derive .Download], some e)
    | .ok d => (done ++ [.derive .Download, .setText .secret_do d], none)
  if secret.get_type ≤ SecretType.ReadOnly then
    match secret.derive owf .ReadOnly with
    | .error e => (rw ++ [.derive .ReadOnly], some e)
    | .ok ro => download (rw ++ [.derive .ReadOnly, .setText .secret_ro ro])
  else
    download (rw ++ [.setVisible .label_ro false, .setVisible .secret_ro false,
      .setVisible .copy_ro false])

/-! ## MetaStorage -/

/-- The objects wired together by the constructor of `MetaStorage`. -/
inductive Component where
  | index_ | indexer_ | poller_ | watcher_ | this
  deriving DecidableEq, Repr

/-- The signals and slots named in the constructor of `MetaStorage`. -/
inductive Member where
  | newPath | addIndexing | metaAdded | metaAddedExternal
  deriving DecidableEq, Repr

/-- A Qt connection `connect(sender, signal, receiver, slot)`. -/
structure Connection where
  sender : Component
  signal : Member
  receiver : Component
  slot : Member
  deriving DecidableEq, Repr

/-- The part of `FolderParams` the constructor reads. -/
structure FolderParams where
  secret : Secret
  deriving DecidableEq, Repr

/-- A `MetaStorage` after construction: the connections made, in order, and
whether its poller is enabled. -/
structure MetaStorage where
  connections : List Connection
  poller_enabled : Bool
  deriving DecidableEq, Repr

/-- The constructor `MetaStorage::MetaStorage`.  `DirectoryPoller` is not among
the sources: `fresh_poller_enabled` is the enabled state of a poller right
after its own constructor, and `setEnabled(true)` sets that state. -/
def MetaStorage.ctor (params : FolderParams) (fresh_poller_enabled : Bool) : MetaStorage :=
  let indexing : MetaStorage :=
    if params.secret.get_type ≤ SecretType.ReadWrite then
      { connections := [⟨.poller_, .newPath, .indexer_, .addIndexing⟩,
                        ⟨.watcher_, .newPath, .indexer_, .addIndexing⟩],
        poller_enabled := true }
    else
      { connections := [], poller_enabled := fresh_poller_enabled }
  { indexing with
    connections := indexing.connections ++
      [⟨.index_, .metaAdded, .this, .metaAdded⟩,
       ⟨.index_, .metaAddedExternal, .this, .metaAddedExternal⟩] }

/-! ## TrackerConnection -/

/-- The algorithm `std::copy(first, last, d_first)` on byte ranges: `src` is the
range `[first, last)`, `dst` the destination container and `pos` the offset of
`d_first` in it.  Elements are assigned one by one, front to back. -/
def std_copy : QByteArray → QByteArray → Nat → QByteArray
  | [], dst, _ => dst
  | b :: rest, dst, pos => std_copy rest (dst.set pos b) (pos + 1)

/-- The iterator range `[c.begin(), c.begin() + n)`; it exists only when `c` has
at least `n` elements (reading past the end is undefined). -/
def range_from_begin (c : QByteArray) (n : Nat) : Option QByteArray :=
  if n ≤ c.length then some (c.take n) else none

/-- A `std::copy` of `src` into `dst` at offset `pos`; defined only when the
destination has room for all of `src`. -/
def copy_into (src dst : QByteArray) (pos : Nat) : Option QByteArray :=
  if pos + src.length ≤ dst.length then some (std_copy src dst pos) else none

/-- Modelled from the spec: `TrackerConnection.h` is not among the sources; the
`info_hash` of the BitTorrent UDP tracker protocol is an array of 20 octets. -/
def info_hash_size : Nat := 20

/-- Modelled from the spec: `TrackerConnection.h` is not among the sources; the
`peer_id` of the BitTorrent UDP tracker protocol is an array of 20 octets. -/
def peer_id_size : Nat := 20

/-- The function `TrackerConnection::get_info_hash`.  `ih` is the content of the
local array `info_hash ih;` before the copy (it is not initialised by the
code), `hash` is `group_ptr_->hash()`. -/
def get_info_hash (ih : QByteArray) (hash : QByteArray) : Option QByteArray := do
  let src ← range_from_begin hash (min info_hash_size hash.length)
  copy_into src ih 0

/-- The literal `"-LV0001-"` as octets. -/
def default_az_id : QByteArray :=
  "-LV0001-".data.map (fun c => UInt8.ofNat c.toNat)

/-- The function `TrackerConnection::get_peer_id`.  `pid` is the content of the
local array `peer_id pid;` before the copies, `configured` is the value of
`discovery.bttracker.azureus_id` in the configuration, if there is one, and
`public_key` is `node_key().public_key()`.  After the length check `az_id` has
8 octets, so the unsigned subtraction cannot wrap. -/
def get_peer_id (pid : QByteArray) (configured : Option QByteArray) (public_key : QByteArray) :
    Option QByteArray := do
  let az_id := configured.getD default_az_id
  let az_id := if az_id.length ≠ 8 then default_az_id else az_id
  let pubkey_bytes_left := peer_id_size - az_id.length
  let pid ← copy_into az_id pid 0
  let src ← range_from_begin public_key pubkey_bytes_left
  copy_into src pid az_id.length

/-! ## CBOR values (Qt) -/

/-- A `QString`: a run of characters. -/
abbrev QString := List Char

mutual
/-- The shapes of `QCborValue` that the announcement uses. -/
inductive QCborValue where
  | Integer (n : Int)
  | String (s : QString)
  | Map (m : QCborMap)
  | Tag (tag : Nat) (v : QCborValue)
/-- A `QCborMap` with integer keys: the entries in the order in which they are
stored. -/
inductive QCborMap where
  | nil
  | cons (key : Int) (value : QCborValue) (rest : QCborMap)
end

/-- The number of entries of a map, `QCborMap::size`. -/
def QCborMap.size : QCborMap → Nat
  | .nil => 0
  | .cons _ _ rest => rest.size + 1

/-- The lookup `QCborMap::value(key)`: the value stored under `key`, if any. -/
def QCborMap.value : QCborMap → Int → Option QCborValue
  | .nil, _ => none
  | .cons k v rest, key => if k = key then some v else rest.value key

/-- The member `QCborMap::insert(key, value)`: an existing entry with that key
has its value overwritten in place, otherwise the entry is appended. -/
def QCborMap.insert : QCborMap → Int → QCborValue → QCborMap
  | .nil, key, value => .cons key value .nil
  | .cons k v rest, key, value =>
    if k = key then .cons k value rest else .cons k v (rest.insert key value)

/-- The constructor of `QCborMap` from a brace-initialisation list: the pairs
are inserted one after the other into an empty map. -/
def QCborMap.ofList (args : List (Int × QCborValue)) : QCborMap :=
  args.foldl (fun m kv => m.insert kv.1 kv.2) .nil

/-- The tag `QCborKnownTags::Signature` (the self-described CBOR tag). -/
def QCborKnownTags.Signature : Nat := 55799

/-- The big-endian octets of the low `k` octets of `n`. -/
def big_endian (n : Nat) : Nat → QByteArray
  | 0 => []
  | k + 1 => UInt8.ofNat (n / 256 ^ k % 256) :: big_endian n k

/-- The initial octets of a CBOR data item: major type and argument, in the
shortest form. -/
def cbor_head (major : Nat) (n : Nat) : QByteArray :=
  if n < 24 then [UInt8.ofNat (major * 32 + n)]
  else if n < 256 then UInt8.ofNat (major * 32 + 24) :: big_endian n 1
  else if n < 65536 then UInt8.ofNat (major * 32 + 25) :: big_endian n 2
  else if n < 4294967296 then UInt8.ofNat (major * 32 + 26) :: big_endian n 4
  else UInt8.ofNat (major * 32 + 27) :: big_endian n 8

/-- The CBOR encoding of an integer (major type 0 or 1). -/
def cbor_integer (n : Int) : QByteArray :=
  if 0 ≤ n then cbor_head 0 n.toNat else cbor_head 1 (-1 - n).toNat

/-- The UTF-8 octets of a string. -/
def utf8 (s : QString) : QByteArray :=
  (s.map String.utf8EncodeChar).flatten

mutual
/-- The serialisation `QCborValue::toCbor()` with the default options:
definite lengths, shortest heads, map entries in stored order. -/
def toCbor : QCborValue → QByteArray
  | .Integer n => cbor_integer n
  | .String s => cbor_head 3 (utf8 s).length ++ utf8 s
  | .Map m => cbor_head 5 m.size ++ toCborEntries m
  | .Tag tag v => cbor_head 6 tag ++ toCbor v
/-- The serialisation of the entries of a map, key then value. -/
def toCborEntries : QCborMap → QByteArray
  | .nil => []
  | .cons key value rest => cbor_integer key ++ toCbor value ++ toCborEntries rest
end

/-- The helper `QtMiscUtils::toHexLower`: the digit `"0123456789abcdef"[value & 0xF]`. -/
def toHexLower (value : Nat) : Byte :=
  if value % 16 < 10 then UInt8.ofNat (48 + value % 16) else UInt8.ofNat (87 + value % 16)

/-- The member `QByteArray::toHex()`: two lower-case hexadecimal digits per
octet, high nibble first. -/
def toHex (data : QByteArray) : QByteArray :=
  (data.map (fun b => [toHexLower (b.toNat / 16), toHexLower (b.toNat % 16)])).flatten

/-- The conversion `QString::fromLatin1`: each octet is the character with that
code point. -/
def fromLatin1 (data : QByteArray) : QString :=
  data.map (fun b => Char.ofNat b.toNat)

/-! ## MulticastGroup -/

/-- A C++ `int` result: the mathematical value reduced to 32-bit two's
complement. -/
def to_int32 (x : Int) : Int :=
  (x + 2147483648) % 4294967296 - 2147483648

/-- The timer types of `Qt::TimerType` used here. -/
inductive TimerType where
  | CoarseTimer
  | VeryCoarseTimer
  deriving DecidableEq, Repr

/-- A `QTimer`: its interval in milliseconds (an `int`), whether it is running,
and how often it has been started (each start begins a new period) and
stopped. -/
structure QTimer where
  interval : Int := 0
  timerType : TimerType := .CoarseTimer
  active : Bool := false
  starts : Nat := 0
  stops : Nat := 0
  deriving DecidableEq, Repr

/-- The member `QTimer::isActive`. -/
def QTimer.isActive (t : QTimer) : Bool := t.active

/-- The member `QTimer::start()`: starts the timer, or restarts it when it is
already running. -/
def QTimer.start (t : QTimer) : QTimer :=
  { t with active := true, starts := t.starts + 1 }

/-- The member `QTimer::stop()`. -/
def QTimer.stop (t : QTimer) : QTimer :=
  { t with active := false, stops := t.stops + 1 }

/-- An IP address, in text form. -/
abbrev QHostAddress := String

/-- An address and a port. -/
structure Endpoint where
  addr : QHostAddress
  port : Nat
  deriving DecidableEq, Repr

/-- Everything a `MulticastGroup` reads from outside itself: the global
configuration, its provider, its folder group, and the three key constants of
the header (which is not among the sources). -/
structure Context where
  /-- The value of `getGlobal("multicast_repeat_interval").toInt()`, an `int`. -/
  multicast_repeat_interval : Int
  /-- The value of `getGlobal("p2p_listen").toUInt()`, an unsigned 32-bit number. -/
  p2p_listen : Nat
  /-- The value of `provider_->getDigest()`. -/
  digest : QByteArray
  /-- The value of `fgroup_->folderid()`. -/
  folderid : QByteArray
  /-- The value of `provider_->getAddressV4()`. -/
  addressV4 : QHostAddress
  /-- The value of `provider_->getAddressV6()`. -/
  addressV6 : QHostAddress
  /-- The value of `provider_->getPort()`. -/
  port : Nat
  /-- The constant `DISCOVERY_PORT`. -/
  DISCOVERY_PORT : Int
  /-- The constant `DISCOVERY_PEER_ID`. -/
  DISCOVERY_PEER_ID : Int
  /-- The constant `DISCOVERY_COMMUNITY_ID`. -/
  DISCOVERY_COMMUNITY_ID : Int
  deriving DecidableEq, Repr

/-- The members of a `MulticastGroup` that change: its timer and its cached
message. -/
structure MulticastGroup where
  timer_ : QTimer
  message_ : QByteArray
  deriving DecidableEq, Repr

/-- The constructor `MulticastGroup::MulticastGroup`: a new timer whose interval
is the `int` product `toInt() * 1000`, of type `VeryCoarseTimer`, not started;
the message is empty. -/
def MulticastGroup.ctor (ctx : Context) : MulticastGroup :=
  { timer_ := { interval := to_int32 (ctx.multicast_repeat_interval * 1000),
                timerType := .VeryCoarseTimer },
    message_ := [] }

/-- The member `MulticastGroup::setEnabled`. -/
def MulticastGroup.setEnabled (self : MulticastGroup) (enabled : Bool) : MulticastGroup :=
  if !self.timer_.isActive && enabled then
    { self with timer_ := self.timer_.start }
  else if self.timer_.isActive && !enabled then
    { self with timer_ := self.timer_.stop }
  else
    self

/-- The map written in `getMessage`: three pairs, inserted in the order of the
initialiser list. -/
def MulticastGroup.message_map (ctx : Context) : QCborMap :=
  QCborMap.ofList
    [(ctx.DISCOVERY_PORT, .Integer (to_int32 (Int.ofNat (ctx.p2p_listen % 4294967296)))),
     (ctx.DISCOVERY_PEER_ID, .String (fromLatin1 (toHex ctx.digest))),
     (ctx.DISCOVERY_COMMUNITY_ID, .String (fromLatin1 (toHex ctx.folderid)))]

/-- The value `QCborValue{QCborKnownTags::Signature, {...}}` of `getMessage`. -/
def MulticastGroup.message_value (ctx : Context) : QCborValue :=
  .Tag QCborKnownTags.Signature (.Map (MulticastGroup.message_map ctx))

/-- The member `MulticastGroup::getMessage`: the cached message when it is not
empty, otherwise the serialised announcement, which is also assigned to
`message_`.  The result is the returned bytes and the object afterwards. -/
def MulticastGroup.getMessage (ctx : Context) (self : MulticastGroup) :
    QByteArray × MulticastGroup :=
  if !self.message_.isEmpty then
    (self.message_, self)
  else
    let message := toCbor (MulticastGroup.message_value ctx)
    (message, { self with message_ := message })

/-- The two sockets of the provider. -/
inductive Socket where
  | V4
  | V6
  deriving DecidableEq, Repr

/-- What `sendMulticast` does to the outside: a `writeDatagram` call on a
socket, and the debug line that follows it. -/
inductive NetEvent where
  | writeDatagram (socket : Socket) (datagram : QByteArray) (addr : QHostAddress) (port : Nat)
  | log_sent (endpoint : Endpoint)
  | log_not_sent (endpoint : Endpoint)
  deriving DecidableEq, Repr

/-- The outcome of each `writeDatagram` call: the number of bytes sent, or `-1`
on failure. -/
abbrev Network := Socket → QByteArray → QHostAddress → Nat → Int

/-- The member `MulticastGroup::sendMulticast`: one `writeDatagram` of
`getMessage()`, then one of the two debug lines; the `if` tests the returned
count as a boolean, so it takes the first branch for every non-zero value. -/
def MulticastGroup.sendMulticast (net : Network) (ctx : Context) (socket : Socket)
    (endpoint : Endpoint) (self : MulticastGroup) (trace : List NetEvent) :
    MulticastGroup × List NetEvent :=
  let (message, self) := MulticastGroup.getMessage ctx self
  let trace := trace ++ [.writeDatagram socket message endpoint.addr endpoint.port]
  if net socket message endpoint.addr endpoint.port ≠ 0 then
    (self, trace ++ [.log_sent endpoint])
  else
    (self, trace ++ [.log_not_sent endpoint])

/-- The member `MulticastGroup::sendMulticasts`: the IPv4 announcement, then the
IPv6 one. -/
def MulticastGroup.sendMulticasts (net : Network) (ctx : Context) (self : MulticastGroup)
    (trace : List NetEvent) : MulticastGroup × List NetEvent :=
  let (self, trace) :=
    MulticastGroup.sendMulticast net ctx .V4 ⟨ctx.addressV4, ctx.port⟩ self trace
  MulticastGroup.sendMulticast net ctx .V6 ⟨ctx.addressV6, ctx.port⟩ self trace

/-- The `writeDatagram` calls of a trace, in order. -/
def datagram_writes (trace : List NetEvent) : List NetEvent :=
  trace.filter (fun e => match e with
    | .writeDatagram _ _ _ _ => true
    | _ => false)

/-- A run of successive `getMessage` calls on one object, each under its own
outside world; the results in order and the object at the end. -/
def MulticastGroup.getMessages : List Context → MulticastGroup → List QByteArray × MulticastGroup
  | [], self => ([], self)
  | ctx :: later, self =>
    let (message, self) := MulticastGroup.getMessage ctx self
    let (messages, self) := MulticastGroup.getMessages later self
    (message :: messages, self)

/-- A sample outside world: port 42345, the default 30 s interval, the usual
multicast groups, keys 1, 2, 3. -/
def sample_context : Context :=
  { multicast_repeat_interval := 30
    p2p_listen := 42345
    digest := [0xAB, 0x01]
    folderid := [0x0F, 0xF0, 0x7C]
    addressV4 := "239.192.152.144"
    addressV6 := "ff08::bd02"
    port := 28914
    DISCOVERY_PORT := 1
    DISCOVERY_PEER_ID := 2
    DISCOVERY_COMMUNITY_ID := 3 }

/-! ## Auxiliary facts -/

/-- The order of secret types is the order of their ranks. -/
theorem SecretType.le_def (a b : SecretType) : a ≤ b ↔ a.rank ≤ b.rank := Iff.rfl

/-- The default client id has 8 octets. -/
theorem default_az_id_length : default_az_id.length = 8 := by decide

/-- A copy that fits replaces the octets `pos .. pos + |src|` of the destination by
`src` and keeps the rest. -/
theorem std_copy_eq (src : QByteArray) : ∀ (dst : QByteArray) (pos : Nat),
    pos + src.length ≤ dst.length →
    std_copy src dst pos = dst.take pos ++ src ++ dst.drop (pos + src.length) := by
  induction src with
  | nil => intro dst pos _; simp [std_copy]
  | cons b rest ih =>
    intro dst pos h
    simp only [List.length_cons] at h
    have hlt : pos < dst.length := by omega
    obtain ⟨A, c, C, rfl, hA⟩ : ∃ A c C, dst = A ++ c :: C ∧ A.length = pos :=
      ⟨dst.take pos, dst[pos], dst.drop (pos + 1), by simp, by simp; omega⟩
    subst hA
    have hset : (A ++ c :: C).set A.length b = A ++ b :: C := by
      simp [List.set_append]
    rw [std_copy, hset, ih _ _ (by simp at h ⊢; omega)]
    have e : A.length + 1 + rest.length - A.length = rest.length + 1 := by omega
    have e2 : A.length + (rest.length + 1) - A.length = rest.length + 1 := by omega
    simp [List.take_append_eq_append_take, List.drop_append_eq_append_drop, e, e2]
    rw [List.take_of_length_le (show A.length ≤ A.length + 1 by omega),
      List.drop_of_length_le (show A.length ≤ A.length + 1 + rest.length by omega),
      List.drop_of_length_le (show A.length ≤ A.length + (rest.length + 1) by omega)]

/-- The result of `get_info_hash`: the copied prefix of the hash, then what the
array held beyond it. -/
theorem get_info_hash_eq (ih hash : QByteArray) (hih : ih.length = info_hash_size) :
    get_info_hash ih hash =
      some (hash.take (min info_hash_size hash.length) ++
        ih.drop (min info_hash_size hash.length)) := by
  have hlen : (hash.take (min info_hash_size hash.length)).length =
      min info_hash_size hash.length := by
    simp
  have hmin : min info_hash_size hash.length ≤ hash.length := Nat.min_le_right _ _
  have hroom : 0 + (hash.take (min info_hash_size hash.length)).length ≤ ih.length := by
    rw [hlen, hih]; exact Nat.zero_add _ ▸ Nat.min_le_left _ _
  simp only [get_info_hash, range_from_begin, hmin, if_true, copy_into, hroom,
    Option.bind_eq_bind, Option.some_bind]
  rw [std_copy_eq _ _ _ hroom, hlen]
  simp

/-- The result of `get_peer_id`: the 8-octet client id, then 12 octets of the key. -/
theorem get_peer_id_eq (pid : QByteArray) (configured : Option QByteArray)
    (public_key : QByteArray) (az_id : QByteArray)
    (haz : az_id = (if (configured.getD default_az_id).length ≠ 8 then default_az_id
      else configured.getD default_az_id))
    (hpid : pid.length = peer_id_size) (hkey : 12 ≤ public_key.length) :
    az_id.length = 8 ∧ get_peer_id pid configured public_key = some (az_id ++ public_key.take 12) := by
  have h8 : az_id.length = 8 := by
    rw [haz]
    split
    · exact default_az_id_length
    · rename_i h; simpa using h
  refine ⟨h8, ?_⟩
  have hp : pid.length = 20 := hpid
  have hroom1 : 0 + az_id.length ≤ pid.length := by omega
  have hk : peer_id_size - az_id.length ≤ public_key.length := by
    rw [h8]; exact hkey
  have hl2 : (public_key.take (peer_id_size - az_id.length)).length = 12 := by
    rw [h8]; simp [peer_id_size]; omega
  have hl1 : (std_copy az_id pid 0).length = 20 := by
    rw [std_copy_eq _ _ _ hroom1]; simp; omega
  have hroom2 : az_id.length + (public_key.take (peer_id_size - az_id.length)).length ≤
      (std_copy az_id pid 0).length := by
    rw [hl2, hl1, h8]
  simp only [get_peer_id, ← haz, copy_into, hroom1, if_true, range_from_begin, hk, hroom2,
    Option.bind_eq_bind, Option.some_bind]
  rw [std_copy_eq _ _ _ hroom2, std_copy_eq _ _ _ hroom1, hl2, h8]
  have e : peer_id_size - 8 = 12 := rfl
  rw [e]
  simp [List.take_append_eq_append_take, List.drop_append_eq_append_drop, h8]
  omega

/-- With a non-empty cache `getMessage` returns the cache and changes nothing. -/
theorem getMessage_cached (ctx : Context) (self : MulticastGroup) (h : self.message_ ≠ []) :
    MulticastGroup.getMessage ctx self = (self.message_, self) := by
  simp [MulticastGroup.getMessage, List.isEmpty_iff, h]

/-- With an empty cache `getMessage` serialises the announcement and stores it. -/
theorem getMessage_fresh (ctx : Context) (self : MulticastGroup) (h : self.message_ = []) :
    MulticastGroup.getMessage ctx self =
      (toCbor (MulticastGroup.message_value ctx),
        { self with message_ := toCbor (MulticastGroup.message_value ctx) }) := by
  simp [MulticastGroup.getMessage, List.isEmpty_iff, h]

/-- What `getMessage` returns is what the object holds afterwards. -/
theorem getMessage_stored (ctx : Context) (self : MulticastGroup) :
    (MulticastGroup.getMessage ctx self).2.message_ = (MulticastGroup.getMessage ctx self).1 := by
  by_cases h : self.message_ = []
  · rw [getMessage_fresh ctx self h]
  · rw [getMessage_cached ctx self h]

/-- Under an unchanged outside world a second `getMessage` repeats the first. -/
theorem getMessage_twice (ctx : Context) (self : MulticastGroup) :
    MulticastGroup.getMessage ctx (MulticastGroup.getMessage ctx self).2 =
      MulticastGroup.getMessage ctx self := by
  by_cases h : self.message_ = []
  · rw [getMessage_fresh ctx self h]
    by_cases h2 : toCbor (MulticastGroup.message_value ctx) = []
    · rw [getMessage_fresh ctx _ h2]
    · rw [getMessage_cached ctx _ h2]
  · rw [getMessage_cached ctx self h, getMessage_cached ctx self h]

/-- A CBOR head has at least one octet. -/
theorem cbor_head_ne_nil (major n : Nat) : cbor_head major n ≠ [] := by
  unfold cbor_head
  split_ifs <;> simp

/-- The serialised announcement is never empty. -/
theorem toCbor_message_value_ne_nil (ctx : Context) :
    toCbor (MulticastGroup.message_value ctx) ≠ [] := by
  simp [MulticastGroup.message_value, toCbor, cbor_head_ne_nil]

/-- A call of `getMessage` never returns an empty message. -/
theorem getMessage_ne_nil (ctx : Context) (self : MulticastGroup) :
    (MulticastGroup.getMessage ctx self).1 ≠ [] := by
  by_cases h : self.message_ = []
  · rw [getMessage_fresh ctx self h]
    exact toCbor_message_value_ne_nil ctx
  · rw [getMessage_cached ctx self h]
    exact h

/-- Every value of `toHexLower` is one of the digits `0-9a-f`. -/
theorem toHexLower_digit (value : Nat) :
    toHexLower value ∈ "0123456789abcdef".data.map (fun c => UInt8.ofNat c.toNat) := by
  have key : ∀ k : Fin 16,
      toHexLower k.val ∈ "0123456789abcdef".data.map (fun c => UInt8.ofNat c.toNat) := by
    decide
  have h := key ⟨value % 16, Nat.mod_lt _ (by decide)⟩
  simpa [toHexLower, Nat.mod_mod] using h

/-- The hex text has two digits per octet. -/
theorem toHex_length (data : QByteArray) : (toHex data).length = 2 * data.length := by
  induction data with
  | nil => rfl
  | cons b rest ih =>
    simp only [toHex, List.map_cons, List.flatten_cons, List.length_append, List.length_cons,
      List.length_nil] at ih ⊢
    omega

/-- The hex text consists of the digits `0-9a-f` only. -/
theorem toHex_digits (data : QByteArray) :
    ∀ c ∈ toHex data, c ∈ "0123456789abcdef".data.map (fun c => UInt8.ofNat c.toNat) := by
  intro c hc
  simp only [toHex, List.mem_flatten, List.mem_map] at hc
  obtain ⟨l, ⟨b, _, rfl⟩, hcl⟩ := hc
  simp only [List.mem_cons, List.mem_singleton, List.not_mem_nil, or_false] at hcl
  rcases hcl with rfl | rfl <;> exact toHexLower_digit _

/-! ## Properties -/

/-- C1: a peer session is ready exactly when it has both sent and received a
handshake; a session that has done only one of the two is not ready. -/
theorem P2PFolder_ready_iff :
    (∀ self : P2PFolder,
      self.ready = true ↔ (self.handshake_sent_ = true ∧ self.handshake_received_ = true)) ∧
    (∀ self : P2PFolder,
      self.handshake_sent_ = true → self.handshake_received_ = false → self.ready = false) ∧
    (∀ self : P2PFolder,
      self.handshake_sent_ = false → self.handshake_received_ = true → self.ready = false) := by
  refine ⟨?_, ?_, ?_⟩
  · intro self
    simp [P2PFolder.ready]
  · intro self hs hr
    simp [P2PFolder.ready, hs, hr]
  · intro self hs hr
    simp [P2PFolder.ready, hs, hr]

/-- Witness for C1: a session that has only sent its handshake is not ready,
one that has done both is. -/
theorem P2PFolder_ready_iff_witness :
    P2PFolder.ready { handshake_received_ := false, handshake_sent_ := true } = false ∧
    P2PFolder.ready { handshake_received_ := true, handshake_sent_ := true } = true :=
  ⟨P2PFolder_ready_iff.2.1 _ rfl rfl, (P2PFolder_ready_iff.1 _).mpr ⟨rfl, rfl⟩⟩

/-- C7: for each of the four secret types, every `derive(target)` call made by
`init_secrets` has `target >= type`, no call fails, `derive(ReadOnly)` is
called exactly when the type is `ReadOnly` or higher privilege, and
`derive(Download)` is always called. -/
theorem init_secrets_derive_targets (owf : SecretType → QByteArray → QByteArray)
    (secret : Secret) :
    (∀ target, UiEvent.derive target ∈ (init_secrets owf secret).1 →
      secret.get_type ≤ target ∧ (secret.derive owf target).isOk = true) ∧
    (init_secrets owf secret).2 = none ∧
    (UiEvent.derive .ReadOnly ∈ (init_secrets owf secret).1 ↔
      secret.get_type ≤ SecretType.ReadOnly) ∧
    UiEvent.derive .Download ∈ (init_secrets owf secret).1 := by
  obtain ⟨t, p⟩ := secret
  cases t <;>
    simp [init_secrets, Secret.derive, Secret.get_type, SecretType.le_def, SecretType.rank,
      Except.isOk, Except.toBool]

/-- Witness for C7: with a read-write secret the only targets are `ReadOnly`
and `Download`, and the `ReadOnly` call succeeds. -/
theorem init_secrets_derive_targets_witness :
    SecretType.ReadWrite ≤ SecretType.ReadOnly ∧
    (Secret.derive (fun _ p => p) ⟨.ReadWrite, [1, 2]⟩ .ReadOnly).isOk = true :=
  (init_secrets_derive_targets (fun _ p => p) ⟨.ReadWrite, [1, 2]⟩).1 .ReadOnly (by decide)

/-- C8: after construction the poller and the watcher both feed
`IndexerQueue::addIndexing` and the poller is enabled exactly when the folder
secret is `Owner` or `ReadWrite`; for a `ReadOnly` or `Download` secret nothing
is connected to the indexer and the poller is left as its own constructor made
it (not enabled, for a poller that starts disabled). -/
theorem MetaStorage_ctor_wiring (params : FolderParams) :
    (params.secret.get_type ≤ SecretType.ReadWrite ↔
      (params.secret.get_type = .Owner ∨ params.secret.get_type = .ReadWrite)) ∧
    ((⟨.poller_, .newPath, .indexer_, .addIndexing⟩ : Connection) ∈
        (MetaStorage.ctor params false).connections ↔
      params.secret.get_type ≤ SecretType.ReadWrite) ∧
    ((⟨.watcher_, .newPath, .indexer_, .addIndexing⟩ : Connection) ∈
        (MetaStorage.ctor params false).connections ↔
      params.secret.get_type ≤ SecretType.ReadWrite) ∧
    ((MetaStorage.ctor params false).poller_enabled = true ↔
      params.secret.get_type ≤ SecretType.ReadWrite) ∧
    (¬ params.secret.get_type ≤ SecretType.ReadWrite →
      (∀ c ∈ (MetaStorage.ctor params false).connections, c.receiver ≠ .indexer_) ∧
      (MetaStorage.ctor params false).poller_enabled = false) ∧
    (∀ fresh, (MetaStorage.ctor params fresh).poller_enabled =
      (decide (params.secret.get_type ≤ SecretType.ReadWrite) || fresh)) := by
  obtain ⟨⟨t, p⟩⟩ := params
  cases t <;>
    simp [MetaStorage.ctor, Secret.get_type, SecretType.le_def, SecretType.rank]

/-- Witness for C8: a read-only folder has no connection into the indexer and
its poller stays disabled. -/
theorem MetaStorage_ctor_wiring_witness :
    (∀ c ∈ (MetaStorage.ctor ⟨⟨.ReadOnly, []⟩⟩ false).connections, c.receiver ≠ .indexer_) ∧
    (MetaStorage.ctor ⟨⟨.ReadOnly, []⟩⟩ false).poller_enabled = false :=
  (MetaStorage_ctor_wiring ⟨⟨.ReadOnly, []⟩⟩).2.2.2.2.1 (by decide)

/-- C9: after `setEnabled(b)` the timer is active iff `b`; `setEnabled` with the
state the timer is already in changes nothing at all (no start, no stop), and
a second `setEnabled(b)` changes nothing either. -/
theorem MulticastGroup_setEnabled_active (self : MulticastGroup) (b : Bool) :
    ((self.setEnabled b).timer_.isActive = true ↔ b = true) ∧
    self.setEnabled self.timer_.isActive = self ∧
    (self.setEnabled b).setEnabled b = self.setEnabled b := by
  obtain ⟨⟨i, ty, a, st, sp⟩, m⟩ := self
  cases a <;> cases b <;>
    simp [MulticastGroup.setEnabled, QTimer.isActive, QTimer.start, QTimer.stop]

/-- C6 (refuted as stated): 2147484 is a 32-bit `int`, but the `int` product
`2147484 * 1000` wraps: the interval is `-2147483296` ms, not 2147484000 ms. -/
theorem multicast_interval_wraps :
    (-2147483648 : Int) ≤ 2147484 ∧ (2147484 : Int) ≤ 2147483647 ∧
    (MulticastGroup.ctor { sample_context with multicast_repeat_interval := 2147484 }).timer_.interval
      = -2147483296 ∧
    (MulticastGroup.ctor { sample_context with multicast_repeat_interval := 2147484 }).timer_.interval
      ≠ 2147484 * 1000 := by
  decide

/-- C6 (amended): for a 32-bit configured value `n`, the timer interval is
exactly `n * 1000` ms if and only if `-2147483 <= n <= 2147483`; in that range
the 32-bit product does not wrap. -/
theorem multicast_interval_exact (ctx : Context)
    (hlo : -2147483648 ≤ ctx.multicast_repeat_interval)
    (hhi : ctx.multicast_repeat_interval ≤ 2147483647) :
    (MulticastGroup.ctor ctx).timer_.interval = ctx.multicast_repeat_interval * 1000 ↔
      (-2147483 ≤ ctx.multicast_repeat_interval ∧ ctx.multicast_repeat_interval ≤ 2147483) := by
  simp only [MulticastGroup.ctor, to_int32]
  constructor
  · intro h
    omega
  · intro h
    omega

/-- Witness for C6 (amended): the default 30 s gives 30000 ms. -/
theorem multicast_interval_exact_witness :
    (MulticastGroup.ctor sample_context).timer_.interval = 30 * 1000 :=
  (multicast_interval_exact sample_context (by decide) (by decide)).mpr
    ⟨by decide, by decide⟩

/-- C2: with a 20-byte `peer_id` array and a public key of at least 12 bytes,
`get_peer_id` returns 20 bytes: first the 8-byte client id (the configured
`azureus_id` when it has exactly 8 bytes, otherwise `"-LV0001-"`), then the
first 12 bytes of the public key. -/
theorem get_peer_id_layout (pid : QByteArray) (configured : Option QByteArray)
    (public_key : QByteArray) (hpid : pid.length = peer_id_size)
    (hkey : 12 ≤ public_key.length) :
    ∃ r, get_peer_id pid configured public_key = some r ∧
      r.length = 20 ∧
      r.take 8 = (match configured with
        | some az_id => if az_id.length = 8 then az_id else default_az_id
        | none => default_az_id) ∧
      r.drop 8 = public_key.take 12 := by
  obtain ⟨h8, hr⟩ := get_peer_id_eq pid configured public_key _ rfl hpid hkey
  refine ⟨_, hr, ?_, ?_, ?_⟩
  · simp only [List.length_append, h8, List.length_take]
    omega
  · rw [List.take_left' h8]
    cases configured with
    | none => simp [default_az_id_length]
    | some az_id =>
      by_cases h : az_id.length = 8 <;> simp [h]
  · rw [List.drop_left' h8]

/-- Witness for C2: a configured 8-byte id `ABCDEFGH` and a 16-byte key. -/
theorem get_peer_id_layout_witness :
    ∃ r, get_peer_id (List.replicate 20 0) (some [65, 66, 67, 68, 69, 70, 71, 72])
        [1, 2, 3, 4, 5, 6, 7, 8, 9, 10, 11, 12, 13, 14, 15, 16] = some r ∧
      r.length = 20 ∧
      r.take 8 = [65, 66, 67, 68, 69, 70, 71, 72] ∧
      r.drop 8 = [1, 2, 3, 4, 5, 6, 7, 8, 9, 10, 11, 12] :=
  get_peer_id_layout (List.replicate 20 0) (some [65, 66, 67, 68, 69, 70, 71, 72])
    [1, 2, 3, 4, 5, 6, 7, 8, 9, 10, 11, 12, 13, 14, 15, 16] (by decide) (by decide)

/-- C3: with a 20-byte `info_hash` array, `get_info_hash` returns 20 bytes whose
first `min(20, |h|)` bytes are those of the folder hash `h`; when `|h| >= 20`
the result is exactly the first 20 bytes of `h`, whatever the array held
before. -/
theorem get_info_hash_prefix (ih hash : QByteArray) (hih : ih.length = info_hash_size) :
    ∃ r, get_info_hash ih hash = some r ∧
      r.length = 20 ∧
      r.take (min 20 hash.length) = hash.take (min 20 hash.length) ∧
      (20 ≤ hash.length → r = hash.take 20 ∧
        ∀ other : QByteArray, other.length = info_hash_size →
          get_info_hash other hash = some r) := by
  have h20 : ih.length = 20 := hih
  have hmin : min info_hash_size hash.length = min 20 hash.length := rfl
  have hlen : (hash.take (min 20 hash.length)).length = min 20 hash.length := by simp
  refine ⟨_, get_info_hash_eq ih hash hih, ?_, ?_, ?_⟩
  · rw [hmin, List.length_append, hlen, List.length_drop, h20]
    omega
  · rw [hmin, List.take_left' hlen]
  · intro hge
    have e : min 20 hash.length = 20 := Nat.min_eq_left hge
    have full : ∀ other : QByteArray, other.length = info_hash_size →
        hash.take (min info_hash_size hash.length) ++
          other.drop (min info_hash_size hash.length) = hash.take 20 := by
      intro other ho
      have ho20 : other.length = 20 := ho
      rw [hmin, e, List.drop_of_length_le (by omega), List.append_nil]
    refine ⟨full ih hih, ?_⟩
    intro other ho
    rw [get_info_hash_eq other hash ho, full other ho, full ih hih]

/-- Witness for C3: a 24-byte folder hash and an array full of sevens. -/
theorem get_info_hash_prefix_witness :
    get_info_hash (List.replicate 20 7)
        [1, 2, 3, 4, 5, 6, 7, 8, 9, 10, 11, 12, 13, 14, 15, 16, 17, 18, 19, 20, 21, 22, 23, 24] =
      some [1, 2, 3, 4, 5, 6, 7, 8, 9, 10, 11, 12, 13, 14, 15, 16, 17, 18, 19, 20] := by
  obtain ⟨r, hr, _, _, h⟩ := get_info_hash_prefix (List.replicate 20 7)
    [1, 2, 3, 4, 5, 6, 7, 8, 9, 10, 11, 12, 13, 14, 15, 16, 17, 18, 19, 20, 21, 22, 23, 24]
    (by decide)
  rw [hr, (h (by decide)).1]
  rfl

/-- C4: on a first call (empty cache, the three key constants distinct)
`getMessage` builds a map of exactly three entries, in this order: under
`DISCOVERY_PORT` the `p2p_listen` value as an `int` (the value itself below
2^31), under `DISCOVERY_PEER_ID` the lower-case hex text of the node digest,
under `DISCOVERY_COMMUNITY_ID` the lower-case hex text of the folder id; the
call returns and caches the serialisation of that map under the signature
tag. -/
theorem getMessage_first_call (ctx : Context) (self : MulticastGroup)
    (hfirst : self.message_ = [])
    (h12 : ctx.DISCOVERY_PORT ≠ ctx.DISCOVERY_PEER_ID)
    (h13 : ctx.DISCOVERY_PORT ≠ ctx.DISCOVERY_COMMUNITY_ID)
    (h23 : ctx.DISCOVERY_PEER_ID ≠ ctx.DISCOVERY_COMMUNITY_ID) :
    MulticastGroup.message_map ctx =
      .cons ctx.DISCOVERY_PORT (.Integer (to_int32 (Int.ofNat (ctx.p2p_listen % 4294967296))))
        (.cons ctx.DISCOVERY_PEER_ID (.String (fromLatin1 (toHex ctx.digest)))
          (.cons ctx.DISCOVERY_COMMUNITY_ID (.String (fromLatin1 (toHex ctx.folderid))) .nil)) ∧
    (MulticastGroup.message_map ctx).size = 3 ∧
    (ctx.p2p_listen < 2147483648 →
      (MulticastGroup.message_map ctx).value ctx.DISCOVERY_PORT =
        some (.Integer (Int.ofNat ctx.p2p_listen))) ∧
    (MulticastGroup.message_map ctx).value ctx.DISCOVERY_PEER_ID =
      some (.String (fromLatin1 (toHex ctx.digest))) ∧
    (MulticastGroup.message_map ctx).value ctx.DISCOVERY_COMMUNITY_ID =
      some (.String (fromLatin1 (toHex ctx.folderid))) ∧
    (toHex ctx.digest).length = 2 * ctx.digest.length ∧
    (toHex ctx.folderid).length = 2 * ctx.folderid.length ∧
    (∀ c ∈ toHex ctx.digest ++ toHex ctx.folderid,
      c ∈ "0123456789abcdef".data.map (fun c => UInt8.ofNat c.toNat)) ∧
    MulticastGroup.message_value ctx =
      .Tag QCborKnownTags.Signature (.Map (MulticastGroup.message_map ctx)) ∧
    MulticastGroup.getMessage ctx self =
      (toCbor (MulticastGroup.message_value ctx),
        { self with message_ := toCbor (MulticastGroup.message_value ctx) }) := by
  have hmap : MulticastGroup.message_map ctx =
      .cons ctx.DISCOVERY_PORT (.Integer (to_int32 (Int.ofNat (ctx.p2p_listen % 4294967296))))
        (.cons ctx.DISCOVERY_PEER_ID (.String (fromLatin1 (toHex ctx.digest)))
          (.cons ctx.DISCOVERY_COMMUNITY_ID (.String (fromLatin1 (toHex ctx.folderid))) .nil)) := by
    simp [MulticastGroup.message_map, QCborMap.ofList, QCborMap.insert, h12, h13, h23]
  refine ⟨hmap, ?_, ?_, ?_, ?_, toHex_length _, toHex_length _, ?_, rfl, ?_⟩
  · rw [hmap]; rfl
  · intro hp
    have e : to_int32 (Int.ofNat (ctx.p2p_listen % 4294967296)) = Int.ofNat ctx.p2p_listen := by
      simp only [to_int32, Int.ofNat_eq_coe]
      omega
    rw [hmap, e]
    simp [QCborMap.value]
  · rw [hmap]
    simp [QCborMap.value, h12]
  · rw [hmap]
    simp [QCborMap.value, h13, h23]
  · intro c hc
    rcases List.mem_append.mp hc with h | h
    · exact toHex_digits _ c h
    · exact toHex_digits _ c h
  · exact getMessage_fresh ctx self hfirst

/-- Witness for C4: the first message of a new group in the sample world. -/
theorem getMessage_first_call_witness :
    (MulticastGroup.message_map sample_context).value 1 = some (.Integer 42345) ∧
    (MulticastGroup.getMessage sample_context (MulticastGroup.ctor sample_context)).1 =
      [217, 217, 247, 163, 1, 25, 165, 105, 2, 100, 97, 98, 48, 49, 3, 102, 48, 102, 102,
        48, 55, 99] := by
  have h := getMessage_first_call sample_context (MulticastGroup.ctor sample_context) rfl
    (by decide) (by decide) (by decide)
  refine ⟨h.2.2.1 (by decide), ?_⟩
  rw [h.2.2.2.2.2.2.2.2.2]
  decide

/-- C5: one `sendMulticasts` makes exactly two `writeDatagram` calls, first on
the IPv4 socket to the IPv4 group address and the provider port, then on the
IPv6 socket to the IPv6 group address and the same port, both with the bytes
that `getMessage()` returns, and this whatever the writes return. -/
theorem sendMulticasts_writes (net : Network) (ctx : Context) (self : MulticastGroup) :
    datagram_writes (MulticastGroup.sendMulticasts net ctx self []).2 =
      [.writeDatagram .V4 (MulticastGroup.getMessage ctx self).1 ctx.addressV4 ctx.port,
       .writeDatagram .V6 (MulticastGroup.getMessage ctx self).1 ctx.addressV6 ctx.port] ∧
    (MulticastGroup.sendMulticasts net ctx self []).2 =
      [.writeDatagram .V4 (MulticastGroup.getMessage ctx self).1 ctx.addressV4 ctx.port,
       if net .V4 (MulticastGroup.getMessage ctx self).1 ctx.addressV4 ctx.port ≠ 0
         then .log_sent ⟨ctx.addressV4, ctx.port⟩ else .log_not_sent ⟨ctx.addressV4, ctx.port⟩,
       .writeDatagram .V6 (MulticastGroup.getMessage ctx self).1 ctx.addressV6 ctx.port,
       if net .V6 (MulticastGroup.getMessage ctx self).1 ctx.addressV6 ctx.port ≠ 0
         then .log_sent ⟨ctx.addressV6, ctx.port⟩ else .log_not_sent ⟨ctx.addressV6, ctx.port⟩] ∧
    (MulticastGroup.sendMulticasts net ctx self []).1 = (MulticastGroup.getMessage ctx self).2 := by
  have h2 := getMessage_twice ctx self
  generalize hg : MulticastGroup.getMessage ctx self = g at h2
  obtain ⟨m, self1⟩ := g
  simp only at h2
  by_cases n4 : net .V4 m ctx.addressV4 ctx.port = 0 <;>
  by_cases n6 : net .V6 m ctx.addressV6 ctx.port = 0 <;>
    simp [MulticastGroup.sendMulticasts, MulticastGroup.sendMulticast, hg, h2, n4, n6,
      datagram_writes]

/-- C10: once a call of `getMessage` has returned a non-empty message, every
later call on that object returns the same bytes and leaves the object as it
is, whatever the configuration, digest and folder id are by then. -/
theorem getMessage_memoised (ctx : Context) (self self1 : MulticastGroup) (m : QByteArray)
    (hcall : MulticastGroup.getMessage ctx self = (m, self1)) (hm : m ≠ []) :
    self1.message_ = m ∧
    (∀ later : Context, MulticastGroup.getMessage later self1 = (m, self1)) ∧
    (∀ later : List Context,
      MulticastGroup.getMessages later self1 = (List.replicate later.length m, self1)) := by
  have hstored : self1.message_ = m := by
    have h := getMessage_stored ctx self
    rw [hcall] at h
    exact h
  have hne : self1.message_ ≠ [] := by rw [hstored]; exact hm
  have hone : ∀ later : Context, MulticastGroup.getMessage later self1 = (m, self1) := by
    intro later
    rw [getMessage_cached later self1 hne, hstored]
  refine ⟨hstored, hone, ?_⟩
  intro later
  induction later with
  | nil => rfl
  | cons c rest ih =>
    simp only [MulticastGroup.getMessages, hone c, ih, List.length_cons, List.replicate_succ]

/-- Witness for C10: after the first message of the sample world, a call under
another port, digest and folder id still returns that first message. -/
theorem getMessage_memoised_witness :
    MulticastGroup.getMessage
        { sample_context with p2p_listen := 1, digest := [9], folderid := [] }
        (MulticastGroup.getMessage sample_context (MulticastGroup.ctor sample_context)).2 =
      MulticastGroup.getMessage sample_context (MulticastGroup.ctor sample_context) ∧
    toCbor (MulticastGroup.message_value
        { sample_context with p2p_listen := 1, digest := [9], folderid := [] }) ≠
      (MulticastGroup.getMessage sample_context (MulticastGroup.ctor sample_context)).1 :=
  ⟨(getMessage_memoised sample_context (MulticastGroup.ctor sample_context)
      (MulticastGroup.getMessage sample_context (MulticastGroup.ctor sample_context)).2
      (MulticastGroup.getMessage sample_context (MulticastGroup.ctor sample_context)).1
      rfl (by decide)).2.1 _, by decide⟩

end librevault
